import Mathlib

/-!
Verification development for the streamflow statistics-and-metrics program
(`program_10.py`).  The data model and operations below are a shallow
embedding of the program: pandas Series/DataFrame columns become Lean lists,
floating point NaN/±inf become an explicit value domain over the rationals,
and every pandas operation used by the program (dropna, isna().sum(),
loc-slicing, diff, rolling means, median, resampling, strided selection) is
translated to an executable Lean function.
-/

namespace Program10

attribute [local semireducible] Rat.mul Rat.inv Rat.add Rat.sub Rat.ofScientific

/-- Value domain for numpy/pandas floating-point results: a rational value,
NaN (e.g. 0/0, statistics of an empty series), or ±infinity (x/0, x ≠ 0). -/
inductive PFloat where
  | nan : PFloat
  | inf : PFloat
  | ninf : PFloat
  | val : ℚ → PFloat
deriving DecidableEq

/-- numpy division semantics on rational operands: b ≠ 0 gives the quotient,
0/0 gives NaN, x/0 with x ≠ 0 gives a signed infinity (a warning, never an
exception). -/
def pdiv (a b : ℚ) : PFloat :=
  if b ≠ 0 then .val (a / b)
  else if a = 0 then .nan
  else if 0 < a then .inf
  else .ninf

/-- Calendar date (the DatetimeIndex entries of the DataFrame). -/
structure Date where
  year : ℤ
  month : ℕ
  day : ℕ
deriving DecidableEq

/-- Order key for dates: with months in 1..12 and days in 1..31 this agrees
with chronological (lexicographic year, month, day) order. -/
def Date.key (d : Date) : ℤ := 384 * d.year + 32 * (d.month : ℤ) + (d.day : ℤ)

/-- Gregorian leap-year rule. -/
def isLeap (y : ℤ) : Bool := (y % 4 == 0 && y % 100 != 0) || (y % 400 == 0)

/-- Days in a month of a given year. -/
def daysInMonth (y : ℤ) (m : ℕ) : ℕ :=
  if m = 2 then (if isLeap y then 29 else 28)
  else if m = 4 ∨ m = 6 ∨ m = 9 ∨ m = 11 then 30
  else 31

/-- A well-formed calendar date. -/
def Date.valid (d : Date) : Prop :=
  1 ≤ d.month ∧ d.month ≤ 12 ∧ 1 ≤ d.day ∧ d.day ≤ daysInMonth d.year d.month

instance : DecidablePred Date.valid := fun d => by
  unfold Date.valid; infer_instance

/-- One row of the loaded DataFrame, after read_csv parsing: the Discharge
column may be NaN (na_values turns the "Eqp" sentinel into NaN), and the
Quality flag may likewise be absent. -/
structure Obs where
  agency_cd : String
  site_no : ℚ
  date : Date
  discharge : Option ℚ
  quality : Option String
deriving DecidableEq

/-- DataDF["Discharge"].isna().sum(): the number of missing Discharge values. -/
def MissingValuesOf (rows : List Obs) : ℕ :=
  (rows.filter fun r => r.discharge == none).length

/-- The negative-streamflow cleanup loop of ReadData iterates over the values
of the Discharge column and, for a negative value i, executes the chained
assignment DataDF["Discharge"][i] = NaN.  The subscript i is the discharge
value itself, not a label of the date index, so the assignment enlarges a
detached series and never writes back into the DataFrame: the net effect on
the table is none (the dormant indexing bug of lines 48-50). -/
def negCleanup (rows : List Obs) : List Obs := rows

/-- DataDF.dropna(): keep only the rows in which no column is NaN (Discharge
and Quality are the columns that can be NaN after parsing). -/
def dropna (rows : List Obs) : List Obs :=
  rows.filter fun r => r.discharge.isSome && r.quality.isSome

/-- ReadData, modelled from the point at which read_csv has parsed the rows
(sentinel "Eqp" already NaN): run the (inert) negative cleanup, count the
missing Discharge values (before any dropping), then drop every row holding
a NaN. -/
def ReadData (rows : List Obs) : List Obs × ℕ :=
  (dropna (negCleanup rows), MissingValuesOf (negCleanup rows))

/-- DataDF.loc[startDate:endDate]: the inclusive label slice on the sorted
date index. -/
def clipRange (rows : List Obs) (startDate endDate : Date) : List Obs :=
  rows.filter fun r =>
    decide (startDate.key ≤ r.date.key) && decide (r.date.key ≤ endDate.key)

/-- ClipData: the inclusive date slice, together with a recount of missing
Discharge values on the clipped frame. -/
def ClipData (rows : List Obs) (startDate endDate : Date) : List Obs × ℕ :=
  (clipRange rows startDate endDate, MissingValuesOf (clipRange rows startDate endDate))

/-- Qvalues.dropna(): the valid (non-missing) values, in temporal order. -/
def dropnaQ (l : List (Option ℚ)) : List ℚ := l.filterMap id

/-- CalcTqmean: after dropna, (Qvalues > Qvalues.mean()).sum() / len(Qvalues).
On an empty series the pandas mean is NaN and every comparison with NaN is
False, so the count is 0 regardless of the mean; the final division is then
0/0, i.e. NaN.  (The Lean mean of the empty list is 0/0 = 0, but it is only
ever compared over the empty list, where the count is 0 either way.) -/
def CalcTqmean (Qvalues : List (Option ℚ)) : PFloat :=
  let q := dropnaQ Qvalues
  let m := q.sum / (q.length : ℚ)
  pdiv ((q.filter fun v => decide (m < v)).length : ℚ) (q.length : ℚ)

/-- Qvalues.diff() without its leading NaN: consecutive differences
q[i] - q[i-1] (the leading NaN of pandas diff is skipped by the nansum). -/
def diffs (q : List ℚ) : List ℚ := List.zipWith (fun a b => a - b) q.tail q

/-- CalcRBindex: after dropna, abs(Qvalues.diff()).sum() / Qvalues.sum(). -/
def CalcRBindex (Qvalues : List (Option ℚ)) : PFloat :=
  let q := dropnaQ Qvalues
  pdiv (((diffs q).map fun x => |x|).sum) q.sum

/-- All windows of 7 consecutive entries of a list (the positions at which
rolling(window=7) has a full window). -/
def windows7 (l : List α) : List (List α) :=
  if l.length < 7 then []
  else (List.range (l.length - 6)).map fun i => (l.drop i).take 7

/-- Binary minimum on the rationals, by explicit comparison. -/
def qmin (a b : ℚ) : ℚ := if b < a then b else a

/-- Calc7Q: after dropna, Qvalues.rolling(window=7).mean().min().  The first
six rolling positions are NaN (min_periods defaults to the window size) and
min skips NaN, so the result is the minimum of the full-window means of the
compacted valid series, and NaN when fewer than 7 valid values exist. -/
def Calc7Q (Qvalues : List (Option ℚ)) : PFloat :=
  let q := dropnaQ Qvalues
  match (windows7 q).map (fun w => w.sum / 7) with
  | [] => .nan
  | m :: ms => .val (ms.foldl qmin m)

/-- pandas Series.median(): the mean of the two middle entries of the sorted
values (they coincide for odd length); NaN on the empty series. -/
def medianQ (q : List ℚ) : Option ℚ :=
  if q.isEmpty then none
  else
    let s := List.insertionSort (fun a b => a ≤ b) q
    some ((s.getD (q.length / 2) 0 + s.getD ((q.length - 1) / 2) 0) / 2)

/-- CalcExceed3TimesMedian: after dropna, count the values strictly above
3 * median.  On the empty series the median is NaN, the loop body never runs
and the integer 0 is returned: the result is always an integer count, never
NaN. -/
def CalcExceed3TimesMedian (Qvalues : List (Option ℚ)) : PFloat :=
  let q := dropnaQ Qvalues
  let count : ℕ :=
    match medianQ q with
    | none => 0
    | some med => (q.filter fun v => decide (3 * med < v)).length
  .val (count : ℚ)

/-- Label of the resample('AS-OCT') bin holding a date: the water year, i.e.
the calendar year of the most recent October 1 on or before the date. -/
def waterYear (d : Date) : ℤ := if 10 ≤ d.month then d.year else d.year - 1

/-- The water years of a series' observations. -/
def wyList (rows : List Obs) : List ℤ := rows.map fun r => waterYear r.date

/-- The consecutive integers a, a+1, ..., b. -/
def intRange (a b : ℤ) : List ℤ :=
  (List.range (b - a + 1).toNat).map fun i : ℕ => a + (i : ℤ)

/-- pandas nan-skipping mean of a numeric column (NaN on the empty column). -/
def colMean (l : List ℚ) : PFloat := pdiv l.sum (l.length : ℚ)

/-- pandas nan-skipping max of a numeric column (NaN on the empty column). -/
def colMax (l : List ℚ) : PFloat :=
  match l with
  | [] => .nan
  | a :: t => .val (t.foldl max a)

/-- pandas nan-skipping median of a numeric column (NaN on the empty column). -/
def colMedian (l : List ℚ) : PFloat :=
  match medianQ l with
  | none => .nan
  | some m => .val m

/-- One row of WYDataDF, keyed by its water-year label.  The Coeff Var and
Skew columns involve square roots, which leave the rational value domain; no
claim constrains their numeric values, so the row carries the remaining
columns of line 155. -/
structure StatRowA where
  label : ℤ
  site_no : PFloat
  MeanFlow : PFloat
  PeakFlow : PFloat
  MedianFlow : PFloat
  Tqmean : PFloat
  RBIndex : PFloat
  SevenQ : PFloat
  Exceed3xMedian : PFloat
deriving DecidableEq

/-- The statistics row of one water-year bin: each column applies its pandas
aggregation (mean/max/median, nan-skipping) or one of the four custom metric
functions to the bin's Discharge values, and site_no is the bin mean of the
site numbers. -/
def annualRow (y : ℤ) (g : List Obs) : StatRowA :=
  let dis := g.map fun r => r.discharge
  let v := dropnaQ dis
  { label := y
    site_no := colMean (g.map fun r => r.site_no)
    MeanFlow := colMean v
    PeakFlow := colMax v
    MedianFlow := colMedian v
    Tqmean := CalcTqmean dis
    RBIndex := CalcRBindex dis
    SevenQ := Calc7Q dis
    Exceed3xMedian := CalcExceed3TimesMedian dis }

/-- GetAnnualStatistics: resample('AS-OCT') produces one bin per water year,
from the bin of the earliest observation to the bin of the latest, every
intermediate year included even when it holds no observation (pandas
resampling emits empty bins); each statistics row is computed on its bin. -/
def GetAnnualStatistics (rows : List Obs) : List StatRowA :=
  match (wyList rows).min?, (wyList rows).max? with
  | some y0, some y1 =>
      (intRange y0 y1).map fun y =>
        annualRow y (rows.filter fun r => waterYear r.date == y)
  | _, _ => []

/-- One row of MoDataDF (the monthly statistics table), keyed by its month
label, carrying the five columns of line 188. -/
structure MoRow where
  label : Date
  site_no : PFloat
  MeanFlow : PFloat
  CoeffVar : PFloat
  Tqmean : PFloat
  RBIndex : PFloat
deriving DecidableEq

/-- One row of the MonthlyAverages table, keyed by its index 1..12. -/
structure AvgRow where
  index : ℕ
  site_no : PFloat
  MeanFlow : PFloat
  CoeffVar : PFloat
  Tqmean : PFloat
  RBIndex : PFloat
deriving DecidableEq

/-- The positional offset table month = [3,4,5,6,7,8,9,10,11,0,1,2] of
GetMonthlyAverages (line 224). -/
def month : List ℕ := [3, 4, 5, 6, 7, 8, 9, 10, 11, 0, 1, 2]

/-- The python slice l[s::k]: entries at positions s, s+k, s+2k, ... -/
def slice (l : List α) (s k : ℕ) : List α :=
  ((List.range l.length).filter fun j =>
    decide (s ≤ j) && decide ((j - s) % k = 0)).filterMap fun j => l[j]?

/-- pandas nan-skipping mean over a column of floating values: NaN entries
are dropped; with no remaining entry the mean is NaN; an infinity among the
entries dominates (opposite infinities give NaN); otherwise the arithmetic
mean of the values. -/
def pmean (l : List PFloat) : PFloat :=
  let vs := l.filter fun x => match x with | .nan => false | _ => true
  if vs.isEmpty then .nan
  else if PFloat.inf ∈ vs then (if PFloat.ninf ∈ vs then .nan else .inf)
  else if PFloat.ninf ∈ vs then .ninf
  else .val ((vs.filterMap fun x =>
    match x with | .val q => some q | _ => none).sum / (vs.length : ℚ))

/-- GetMonthlyAverages: a 12-row table indexed 1..12; row i takes, for each
statistic column, the mean of the strided positional selection
MoDataDF[col][month[i]::12] of the monthly table, and for site_no the mean
of MoDataDF['site_no'][::12].  The month labels of the input are never
consulted: the alignment is purely positional. -/
def GetMonthlyAverages (mo : List MoRow) : List AvgRow :=
  (List.range 12).map fun i =>
    { index := i + 1
      site_no := pmean (slice (mo.map fun r => r.site_no) 0 12)
      MeanFlow := pmean (slice (mo.map fun r => r.MeanFlow) (month.getD i 0) 12)
      CoeffVar := pmean (slice (mo.map fun r => r.CoeffVar) (month.getD i 0) 12)
      Tqmean := pmean (slice (mo.map fun r => r.Tqmean) (month.getD i 0) 12)
      RBIndex := pmean (slice (mo.map fun r => r.RBIndex) (month.getD i 0) 12) }

/-- Modelled from the claim's words, for comparison with Calc7Q: the minimum
over all windows of 7 consecutive days lying fully inside the period of the
7-day rolling mean, where a window containing fewer than 7 valid values (a
missing value inside it) is excluded from the minimum; NaN if no complete
window exists. -/
def sevenQSpec (l : List (Option ℚ)) : PFloat :=
  let complete := (windows7 l).filterMap fun w =>
    if w.all (fun x => x.isSome) then some (dropnaQ w) else none
  match complete.map (fun w => w.sum / 7) with
  | [] => .nan
  | m :: ms => .val (ms.foldl qmin m)

/-- Shorthand for a dated observation with the fixed station fields. -/
def mkObs (y : ℤ) (m d : ℕ) (q : Option ℚ) : Obs :=
  { agency_cd := "USGS", site_no := 3335, date := ⟨y, m, d⟩,
    discharge := q, quality := some "A" }

/-- Input for the ReadData evaluation: three consecutive days, one negative
discharge, one missing ("Eqp") discharge, one ordinary value. -/
def c1Rows : List Obs :=
  [mkObs 1970 1 1 (some (-5)), mkObs 1970 1 2 none, mkObs 1970 1 3 (some 3)]

/-- Period for the Calc7Q counterexample: 14 days, discharge 100 for the
first seven, missing on day 8, discharge 1 afterwards. -/
def c2ex : List (Option ℚ) :=
  [some 100, some 100, some 100, some 100, some 100, some 100, some 100,
   none, some 1, some 1, some 1, some 1, some 1, some 1]

/-- A period whose discharge values are all missing. -/
def c3ex : List (Option ℚ) := [none, none, none]

/-- A monthly-table row with a given label month and Mean Flow value. -/
def mkMoRow (y : ℤ) (m : ℕ) (v : ℚ) : MoRow :=
  { label := ⟨y, m, 1⟩, site_no := .val 3335, MeanFlow := .val v,
    CoeffVar := .val 0, Tqmean := .val 0, RBIndex := .val 0 }

/-- A one-year monthly table, October 1969 through September 1970, whose
Mean Flow in each month equals the calendar month number. -/
def c4ex : List MoRow :=
  [mkMoRow 1969 10 10, mkMoRow 1969 11 11, mkMoRow 1969 12 12,
   mkMoRow 1970 1 1, mkMoRow 1970 2 2, mkMoRow 1970 3 3,
   mkMoRow 1970 4 4, mkMoRow 1970 5 5, mkMoRow 1970 6 6,
   mkMoRow 1970 7 7, mkMoRow 1970 8 8, mkMoRow 1970 9 9]

/-- A clipped series with observations in water years 1970 and 1972 only:
water year 1971 is a structural gap. -/
def c5ex : List Obs :=
  [mkObs 1970 12 1 (some 4), mkObs 1973 1 15 (some 6)]

/-- A constant all-zero period: every discharge equals 0. -/
def c6ex : List (Option ℚ) := [some 0, some 0]

/-- The worked Tqmean example of the specification: values 10, 20, 30, 15, 25. -/
def c7ex : List (Option ℚ) := [some 10, some 20, some 30, some 15, some 25]

/-- An 8-day period with no missing value, for the Calc7Q witness. -/
def c2wex : List (Option ℚ) :=
  [some 5, some 3, some 4, some 9, some 2, some 8, some 7, some 6]

/-!  Helper lemmas. -/

/-- Characterisation of List.min? on integers. -/
theorem min?_spec {l : List ℤ} {a : ℤ} (h : l.min? = some a) :
    a ∈ l ∧ ∀ b ∈ l, a ≤ b := by
  have hA : Std.Antisymm (fun x1 x2 : ℤ => x1 ≤ x2) :=
    ⟨fun hab hba => le_antisymm hab hba⟩
  rw [List.min?_eq_some_iff] at h
  · exact h
  · exact fun a => le_refl a
  · exact fun a b => min_choice a b
  · exact fun a b c => le_min_iff

/-- Characterisation of List.max? on integers. -/
theorem max?_spec {l : List ℤ} {a : ℤ} (h : l.max? = some a) :
    a ∈ l ∧ ∀ b ∈ l, b ≤ a := by
  have hA : Std.Antisymm (fun x1 x2 : ℤ => x1 ≤ x2) :=
    ⟨fun hab hba => le_antisymm hab hba⟩
  rw [List.max?_eq_some_iff] at h
  · exact h
  · exact fun a => le_refl a
  · exact fun a b => max_choice a b
  · exact fun a b c => max_le_iff

/-- Membership in an integer range. -/
theorem mem_intRange {a b y : ℤ} (h1 : a ≤ y) (h2 : y ≤ b) : y ∈ intRange a b := by
  have hy : y = a + (((y - a).toNat : ℕ) : ℤ) := by omega
  have hlt : (y - a).toNat < (b - a + 1).toNat := by omega
  unfold intRange
  rw [hy]
  exact List.mem_map_of_mem (fun i : ℕ => a + (i : ℤ)) (List.mem_range.mpr hlt)

/-- A sum of nonnegative rationals vanishes exactly when each term does. -/
theorem sum_eq_zero_iff_of_nonneg {l : List ℚ} (h : ∀ x ∈ l, 0 ≤ x) :
    l.sum = 0 ↔ ∀ x ∈ l, x = 0 := by
  induction l with
  | nil => simp
  | cons a t ih =>
    have ha : 0 ≤ a := h a (List.mem_cons_self _ _)
    have ht : ∀ x ∈ t, 0 ≤ x := fun x hx => h x (List.mem_cons_of_mem _ hx)
    have hts : 0 ≤ t.sum := List.sum_nonneg ht
    simp only [List.sum_cons, List.mem_cons, forall_eq_or_imp]
    constructor
    · intro hs
      have h1 : a = 0 := by linarith
      have h2 : t.sum = 0 := by linarith
      exact ⟨h1, (ih ht).mp h2⟩
    · rintro ⟨rfl, h0⟩
      simpa using (ih ht).mpr h0

/-- Unfolding the consecutive differences of a two-or-more element list. -/
theorem diffs_cons_cons (a b : ℚ) (t : List ℚ) :
    diffs (a :: b :: t) = (b - a) :: diffs (b :: t) := rfl

/-- All consecutive differences vanish exactly when the list is constant. -/
theorem diffs_eq_zero_iff_const (q : List ℚ) :
    (∀ x ∈ diffs q, x = 0) ↔ ∀ a ∈ q, ∀ b ∈ q, a = b := by
  induction q with
  | nil => simp [diffs]
  | cons a t ih =>
    cases t with
    | nil => simp [diffs]
    | cons b t2 =>
      rw [diffs_cons_cons]
      constructor
      · intro hz
        have hba : b = a := by
          have h1 := hz (b - a) (List.mem_cons_self _ _)
          linarith
        have hc := ih.mp fun x hx => hz x (List.mem_cons_of_mem _ hx)
        have haIn : a ∈ b :: t2 := by rw [hba]; exact List.mem_cons_self _ _
        have hmem : ∀ z : ℚ, z = a ∨ z ∈ b :: t2 → z ∈ b :: t2 := by
          intro z hz
          rcases hz with rfl | hz2
          · exact haIn
          · exact hz2
        intro x hx y hy
        exact hc x (hmem x (List.mem_cons.mp hx)) y (hmem y (List.mem_cons.mp hy))
      · intro hc x hx
        rcases List.mem_cons.mp hx with rfl | hx2
        · have hab := hc a (List.mem_cons_self _ _) b
            (List.mem_cons_of_mem _ (List.mem_cons_self _ _))
          simp [hab]
        · exact (ih.mpr fun u hu v hv =>
            hc u (List.mem_cons_of_mem _ hu) v (List.mem_cons_of_mem _ hv)) x hx2

/-- Dropping the missing markers from an all-valid column recovers it. -/
theorem dropnaQ_map_some (v : List ℚ) : dropnaQ (v.map some) = v := by
  simp [dropnaQ]

/-- A column with no missing value equals its valid part, re-marked. -/
theorem map_some_dropnaQ {l : List (Option ℚ)} (h : none ∉ l) :
    (dropnaQ l).map some = l := by
  induction l with
  | nil => rfl
  | cons a t ih =>
    cases a with
    | none => exact absurd (List.mem_cons_self _ _) h
    | some q =>
      have ht : none ∉ t := fun hm => h (List.mem_cons_of_mem _ hm)
      show (q :: dropnaQ t).map some = some q :: t
      rw [List.map_cons, ih ht]

/-- windows7 commutes with mapping a function over the list. -/
theorem windows7_map (f : α → β) (l : List α) :
    windows7 (l.map f) = (windows7 l).map fun w => w.map f := by
  unfold windows7
  rw [List.length_map]
  split_ifs with h
  · rfl
  · rw [List.map_map]
    refine List.map_congr_left fun i _ => ?_
    simp only [Function.comp_apply]
    rw [← List.map_drop, ← List.map_take]

/-- Index lookups into a mapped list, collected by filterMap. -/
theorem filterMap_getElem?_map (f : α → β) (l : List α) (js : List ℕ) :
    (js.filterMap fun j => (l.map f)[j]?) =
      (js.filterMap fun j => l[j]?).map f := by
  induction js with
  | nil => rfl
  | cons j t ih =>
    simp only [List.getElem?_map] at ih ⊢
    simp only [List.filterMap_cons]
    cases h : l[j]? <;> simp [h, ih]

/-- slice commutes with mapping a function over the list. -/
theorem slice_map (f : α → β) (l : List α) (s k : ℕ) :
    slice (l.map f) s k = (slice l s k).map f := by
  unfold slice
  rw [List.length_map, filterMap_getElem?_map]

/-- Filtering a list is the same as filtering its index range by the looked-up
predicate and collecting the lookups. -/
theorem filter_range_getElem? (l : List α) (p : α → Bool) :
    (((List.range l.length).filter fun j => l[j]?.any p).filterMap
      fun j => l[j]?) = l.filter p := by
  induction l with
  | nil => rfl
  | cons a t ih =>
    rw [List.length_cons, List.range_succ_eq_map, List.filter_cons]
    by_cases hpa : p a
    · rw [if_pos (by simp [hpa]), List.filter_cons_of_pos hpa,
        List.filterMap_cons]
      simp only [List.getElem?_cons_zero]
      rw [List.filter_map, List.filterMap_map]
      simp only [Function.comp_def, Nat.succ_eq_add_one, List.getElem?_cons_succ]
      exact congrArg (a :: ·) ih
    · rw [if_neg (by simp [hpa]), List.filter_cons_of_neg hpa,
        List.filter_map, List.filterMap_map]
      simp only [Function.comp_def, Nat.succ_eq_add_one, List.getElem?_cons_succ]
      exact ih

/-- When the monthly table's labels run through consecutive calendar months
starting at October, the positional stride month[i]::12 used by
GetMonthlyAverages selects exactly the rows of calendar month m = i + 1. -/
theorem slice_eq_filter_month (mo : List MoRow)
    (hlab : (mo.map fun r => r.label.month) =
      (List.range mo.length).map fun j => (j + 9) % 12 + 1)
    (m : ℕ) (h1 : 1 ≤ m) (h2 : m ≤ 12) :
    slice mo (month.getD (m - 1) 0) 12 = mo.filter fun r => r.label.month == m := by
  have hoff : month.getD (m - 1) 0 = (m + 2) % 12 := by
    interval_cases m <;> rfl
  rw [hoff]
  unfold slice
  rw [← filter_range_getElem? mo fun r => r.label.month == m]
  congr 1
  refine List.filter_congr fun j hj => ?_
  rw [List.mem_range] at hj
  have hm : mo[j]?.map (fun r => r.label.month) = some ((j + 9) % 12 + 1) := by
    have hc := congrArg (fun t => t[j]?) hlab
    simpa [List.getElem?_map, List.getElem?_range hj] using hc
  obtain ⟨r, hr, hrm⟩ : ∃ r, mo[j]? = some r ∧ r.label.month = (j + 9) % 12 + 1 := by
    cases hx : mo[j]? with
    | none => rw [hx] at hm; simp at hm
    | some r => rw [hx] at hm; exact ⟨r, rfl, by simpa using hm⟩
  rw [hr]
  simp only [Option.any_some]
  rw [Bool.eq_iff_iff]
  simp only [Bool.and_eq_true, decide_eq_true_eq, beq_iff_eq, hrm]
  omega

/-!  C1. -/

/-- C1 counterexample: evaluating ReadData on a series holding one negative
and one missing discharge shows the negative reading returned unchanged (the
value-indexed cleanup assignment never mutates the table) and the missing
row dropped by dropna, so the returned row count is 2 while the input held 3
rows: rows are dropped for a missing-discharge sentinel, and a negative
discharge is not replaced by missing. -/
theorem ReadData_drops_missing_keeps_negative :
    (ReadData c1Rows).2 = 1 ∧ (ReadData c1Rows).1.length = 2 ∧
    c1Rows.length = 3 ∧
    some (-5) ∈ (ReadData c1Rows).1.map fun r => r.discharge := by decide

/-- Splitting a list by a predicate preserves its length. -/
theorem length_filter_add_length_filter_not (l : List Obs) (p : Obs → Bool) :
    (l.filter p).length + (l.filter fun a => !(p a)).length = l.length := by
  induction l with
  | nil => rfl
  | cons a t ih =>
    by_cases hpa : p a <;> simp [List.filter_cons, hpa] <;> omega

/-- C1 amended: the missing count returned by ReadData is the input's count
of missing discharges (taken before any dropping); the returned row count is
the input count diminished by exactly the rows holding a missing field; and
every row whose discharge is present — a negative reading included — is
returned unchanged: the negative cleanup never substitutes missing, and rows
are dropped precisely for missing values. -/
theorem ReadData_amended (rows : List Obs) :
    (ReadData rows).2 = MissingValuesOf rows ∧
    (ReadData rows).1.length +
      (rows.filter fun r => !(r.discharge.isSome && r.quality.isSome)).length =
      rows.length ∧
    ∀ r ∈ rows, r.discharge ≠ none → r.quality ≠ none →
      r ∈ (ReadData rows).1 := by
  refine ⟨rfl, ?_, ?_⟩
  · simp only [ReadData, negCleanup, dropna]
    exact length_filter_add_length_filter_not rows _
  · intro r hr hd hq
    simp only [ReadData, negCleanup, dropna]
    refine List.mem_filter.mpr ⟨hr, ?_⟩
    rw [Bool.and_eq_true]
    exact ⟨Option.isSome_iff_ne_none.mpr hd, Option.isSome_iff_ne_none.mpr hq⟩

/-- C1 witness: the negative-discharge row of the concrete series passes
through ReadData unchanged. -/
theorem ReadData_amended_witness :
    mkObs 1970 1 1 (some (-5)) ∈ c1Rows ∧
    (mkObs 1970 1 1 (some (-5))).discharge ≠ none ∧
    (mkObs 1970 1 1 (some (-5))).quality ≠ none ∧
    mkObs 1970 1 1 (some (-5)) ∈ (ReadData c1Rows).1 :=
  ⟨by decide, by decide, by decide,
    (ReadData_amended c1Rows).2.2 _ (by decide) (by decide) (by decide)⟩

/-!  C2. -/

/-- C2 counterexample: on a 14-day period with a missing day 8, the only
window of 7 consecutive days with 7 valid values has mean 100, but Calc7Q
returns 106/7: after dropping the missing value the rolling window spans the
gap, so the claimed window semantics does not hold. -/
theorem Calc7Q_gap_cex :
    Calc7Q c2ex = .val (106 / 7) ∧ sevenQSpec c2ex = .val 100 ∧
    Calc7Q c2ex ≠ sevenQSpec c2ex := by decide

/-- C2 amended: Calc7Q equals the claimed complete-7-day-window semantics
applied to the compacted valid series (missing values removed first); in
particular on a period with no missing value the claim's description is
exact. -/
theorem Calc7Q_eq_spec_on_compacted (l : List (Option ℚ)) :
    Calc7Q l = sevenQSpec ((dropnaQ l).map some) ∧
    (none ∉ l → Calc7Q l = sevenQSpec l) := by
  have h1 : Calc7Q l = sevenQSpec ((dropnaQ l).map some) := by
    simp only [Calc7Q, sevenQSpec]
    rw [windows7_map, List.filterMap_map]
    have hc : ((windows7 (dropnaQ l)).filterMap
        ((fun w : List (Option ℚ) =>
            if w.all (fun x => x.isSome) then some (dropnaQ w) else none) ∘
          fun w : List ℚ => w.map some)) = windows7 (dropnaQ l) := by
      have hstep : ∀ w ∈ windows7 (dropnaQ l),
          ((fun w : List (Option ℚ) =>
            if w.all (fun x => x.isSome) then some (dropnaQ w) else none) ∘
            fun w : List ℚ => w.map some) w = some w := by
        intro w _
        simp [Function.comp, dropnaQ_map_some]
      rw [List.filterMap_congr hstep]
      exact List.filterMap_some _
    rw [hc]
  refine ⟨h1, fun hnone => ?_⟩
  rw [h1, map_some_dropnaQ hnone]

/-- C2 witness: on a concrete period without missing values, Calc7Q agrees
with the complete-window semantics of the claim. -/
theorem Calc7Q_eq_spec_on_compacted_witness :
    none ∉ c2wex ∧ Calc7Q c2wex = sevenQSpec c2wex :=
  ⟨by decide, (Calc7Q_eq_spec_on_compacted c2wex).2 (by decide)⟩

/-!  C3. -/

/-- C3 counterexample: on an all-missing period CalcExceed3TimesMedian
returns the number 0, not the NaN required by the claim. -/
theorem Exceed_allMissing_cex :
    CalcExceed3TimesMedian c3ex = .val 0 ∧
    CalcExceed3TimesMedian c3ex ≠ .nan := by decide

/-- C3 amended: on an all-missing period Tqmean, RBIndex and SevenQ are NaN,
while ExceedCount returns the integer count 0; all four metrics are total
functions of the period, so none can raise. -/
theorem metrics_allMissing (l : List (Option ℚ)) (h : ∀ x ∈ l, x = none) :
    CalcTqmean l = .nan ∧ CalcRBindex l = .nan ∧ Calc7Q l = .nan ∧
    CalcExceed3TimesMedian l = .val 0 := by
  have hv : dropnaQ l = [] := by
    rw [dropnaQ, List.filterMap_eq_nil_iff]
    simpa using h
  refine ⟨?_, ?_, ?_, ?_⟩
  · simp [CalcTqmean, hv, pdiv]
  · simp [CalcRBindex, hv, diffs, pdiv]
  · simp [Calc7Q, hv, windows7]
  · simp [CalcExceed3TimesMedian, hv, medianQ]

/-- C3 witness: the amended statement holds at the concrete all-missing
period. -/
theorem metrics_allMissing_witness :
    (∀ x ∈ c3ex, x = none) ∧
    (CalcTqmean c3ex = .nan ∧ CalcRBindex c3ex = .nan ∧ Calc7Q c3ex = .nan ∧
      CalcExceed3TimesMedian c3ex = .val 0) :=
  ⟨by decide, metrics_allMissing c3ex (by decide)⟩

/-!  C6. -/

/-- C6 counterexample: the constant all-zero two-day period has RBIndex
0/0 = NaN, not the 0 the claimed equivalence requires. -/
theorem CalcRBindex_const_zero_cex :
    dropnaQ c6ex = [0, 0] ∧ CalcRBindex c6ex = .nan ∧
    PFloat.nan ≠ PFloat.val 0 := by decide

/-- C6 amended: for a period whose valid values have positive total
discharge, RBIndex is a number q with q ≥ 0, and q = 0 exactly when the
discharge is constant across the period. -/
theorem CalcRBindex_nonneg_zero_iff_const (l : List (Option ℚ))
    (hsum : 0 < (dropnaQ l).sum) :
    ∃ q, CalcRBindex l = .val q ∧ 0 ≤ q ∧
      (q = 0 ↔ ∀ a ∈ dropnaQ l, ∀ b ∈ dropnaQ l, a = b) := by
  have hne : (dropnaQ l).sum ≠ 0 := ne_of_gt hsum
  have habs : ∀ x ∈ (diffs (dropnaQ l)).map fun x => |x|, 0 ≤ x := by
    intro x hx
    obtain ⟨a, _, rfl⟩ := List.mem_map.mp hx
    exact abs_nonneg a
  have hnum : 0 ≤ ((diffs (dropnaQ l)).map fun x => |x|).sum :=
    List.sum_nonneg habs
  have hval : CalcRBindex l =
      .val (((diffs (dropnaQ l)).map fun x => |x|).sum / (dropnaQ l).sum) := by
    simp only [CalcRBindex, pdiv]
    rw [if_pos hne]
  refine ⟨_, hval, div_nonneg hnum (le_of_lt hsum), ?_⟩
  rw [div_eq_zero_iff]
  constructor
  · rintro (hz | hz)
    · refine (diffs_eq_zero_iff_const _).mp fun x hx => ?_
      exact abs_eq_zero.mp
        ((sum_eq_zero_iff_of_nonneg habs).mp hz |x| (List.mem_map_of_mem _ hx))
    · exact absurd hz hne
  · intro hconst
    left
    refine (sum_eq_zero_iff_of_nonneg habs).mpr fun x hx => ?_
    obtain ⟨a, ha, rfl⟩ := List.mem_map.mp hx
    rw [abs_eq_zero]
    exact (diffs_eq_zero_iff_const _).mpr hconst a ha

/-- C6 witness: the amended statement holds at a concrete nonconstant period
with positive total discharge. -/
theorem CalcRBindex_nonneg_zero_iff_const_witness :
    0 < (dropnaQ [some 1, some 2]).sum ∧
    ∃ q, CalcRBindex [some 1, some 2] = .val q ∧ 0 ≤ q ∧
      (q = 0 ↔ ∀ a ∈ dropnaQ [some 1, some 2], ∀ b ∈ dropnaQ [some 1, some 2],
        a = b) :=
  ⟨by decide, CalcRBindex_nonneg_zero_iff_const [some 1, some 2] (by decide)⟩

/-!  C7. -/

/-- C7: on a period with at least one valid value, Tqmean is a number in
[0, 1], and on the worked example 10, 20, 30, 15, 25 it equals 2/5. -/
theorem CalcTqmean_unit_interval (l : List (Option ℚ)) (h : dropnaQ l ≠ []) :
    (∃ q, CalcTqmean l = .val q ∧ 0 ≤ q ∧ q ≤ 1) ∧
    CalcTqmean c7ex = .val (2 / 5) := by
  refine ⟨?_, by decide⟩
  have hn : (dropnaQ l).length ≠ 0 := fun h0 => h (List.length_eq_zero.mp h0)
  have hq : ((dropnaQ l).length : ℚ) ≠ 0 := by exact_mod_cast hn
  have hpos : (0 : ℚ) < (dropnaQ l).length :=
    lt_of_le_of_ne (by positivity) (Ne.symm hq)
  simp only [CalcTqmean, pdiv]
  rw [if_pos hq]
  refine ⟨_, rfl, ?_, ?_⟩
  · exact div_nonneg (by positivity) (le_of_lt hpos)
  · rw [div_le_one hpos]
    exact_mod_cast List.length_filter_le _ _

/-- C7 witness: the theorem applied to the worked example itself. -/
theorem CalcTqmean_unit_interval_witness :
    dropnaQ c7ex ≠ [] ∧
    ((∃ q, CalcTqmean c7ex = .val q ∧ 0 ≤ q ∧ q ≤ 1) ∧
      CalcTqmean c7ex = .val (2 / 5)) :=
  ⟨by decide, CalcTqmean_unit_interval c7ex (by decide)⟩

/-!  C8. -/

/-- C8: clipping is idempotent: re-clipping an already clipped series to the
same inclusive range returns the identical series and missing count. -/
theorem ClipData_idempotent (rows : List Obs) (startDate endDate : Date)
    (h : startDate.key ≤ endDate.key) :
    ClipData (ClipData rows startDate endDate).1 startDate endDate =
      ClipData rows startDate endDate := by
  have hfix : clipRange (clipRange rows startDate endDate) startDate endDate =
      clipRange rows startDate endDate := by
    unfold clipRange
    exact List.filter_eq_self.mpr fun a ha => (List.mem_filter.mp ha).2
  simp only [ClipData]
  rw [hfix]

/-- C8 witness: idempotence at a concrete series and range. -/
theorem ClipData_idempotent_witness :
    (Date.key ⟨1970, 1, 1⟩ ≤ Date.key ⟨1970, 12, 31⟩) ∧
    ClipData (ClipData c1Rows ⟨1970, 1, 1⟩ ⟨1970, 12, 31⟩).1
        ⟨1970, 1, 1⟩ ⟨1970, 12, 31⟩ =
      ClipData c1Rows ⟨1970, 1, 1⟩ ⟨1970, 12, 31⟩ :=
  ⟨by decide, ClipData_idempotent c1Rows ⟨1970, 1, 1⟩ ⟨1970, 12, 31⟩ (by decide)⟩

/-!  C9. -/

/-- C9: for a valid date, the water-year label used by the annual
aggregator's October-anchored grouping equals Y exactly when the date lies
in the span [Y-10-01, (Y+1)-09-30]; in particular 1975-09-30 belongs to
water year 1974 and 1975-10-01 to water year 1975. -/
theorem waterYear_span (d : Date) (Y : ℤ) (h : d.valid) :
    (waterYear d = Y ↔
      (Date.key ⟨Y, 10, 1⟩ ≤ d.key ∧ d.key ≤ Date.key ⟨Y + 1, 9, 30⟩)) ∧
    waterYear ⟨1975, 9, 30⟩ = 1974 ∧ waterYear ⟨1975, 10, 1⟩ = 1975 := by
  refine ⟨?_, by decide, by decide⟩
  obtain ⟨y, m, dd⟩ := d
  obtain ⟨h1, h2, h3, h4⟩ := h
  simp only [waterYear, Date.key, daysInMonth] at h4 ⊢
  interval_cases m <;> simp_all <;>
    first
    | omega
    | (split_ifs at h4 <;> omega)

/-- C9 witness: the span characterisation at the concrete date 2000-05-17
and water year 1999. -/
theorem waterYear_span_witness :
    (Date.valid ⟨2000, 5, 17⟩) ∧
    ((waterYear ⟨2000, 5, 17⟩ = 1999 ↔
      (Date.key ⟨1999, 10, 1⟩ ≤ Date.key (⟨2000, 5, 17⟩ : Date) ∧
        Date.key (⟨2000, 5, 17⟩ : Date) ≤ Date.key ⟨1999 + 1, 9, 30⟩)) ∧
      waterYear ⟨1975, 9, 30⟩ = 1974 ∧ waterYear ⟨1975, 10, 1⟩ = 1975) :=
  ⟨by decide, waterYear_span ⟨2000, 5, 17⟩ 1999 (by decide)⟩

/-!  C10. -/

/-- C10: the series returned by ReadData contains no missing discharge (every
row holding a NaN is dropped after the count is taken), and consequently
clipping a ReadData result to any date range reports a missing count of
zero. -/
theorem ReadData_clip_no_missing (rows : List Obs) (startDate endDate : Date) :
    (∀ r ∈ (ReadData rows).1, r.discharge ≠ none) ∧
    (ClipData (ReadData rows).1 startDate endDate).2 = 0 := by
  have hmem : ∀ r ∈ (ReadData rows).1, r.discharge ≠ none := by
    intro r hr
    simp only [ReadData, negCleanup, dropna] at hr
    have h2 := (List.mem_filter.mp hr).2
    rw [Bool.and_eq_true] at h2
    exact Option.isSome_iff_ne_none.mp h2.1
  refine ⟨hmem, ?_⟩
  simp only [ClipData, MissingValuesOf]
  rw [List.length_eq_zero, List.filter_eq_nil_iff]
  intro r hr
  have hr2 : r ∈ (ReadData rows).1 := List.mem_of_mem_filter hr
  simp only [beq_iff_eq]
  exact hmem r hr2

/-!  C4. -/

/-- C4 counterexample: on a monthly table spanning October 1969 to September
1970 whose Mean Flow in each month equals the month number, the output rows
carry Mean Flow 1, 2, ..., 12 — calendar order January..December — and not
the water-year order 10, 11, 12, 1, ..., 9 the claim requires. -/
theorem GetMonthlyAverages_order_cex :
    ((GetMonthlyAverages c4ex).map fun r => r.MeanFlow) =
      [.val 1, .val 2, .val 3, .val 4, .val 5, .val 6, .val 7, .val 8,
       .val 9, .val 10, .val 11, .val 12] ∧
    ((GetMonthlyAverages c4ex).map fun r => r.MeanFlow) ≠
      [.val 10, .val 11, .val 12, .val 1, .val 2, .val 3, .val 4, .val 5,
       .val 6, .val 7, .val 8, .val 9] := by decide

/-- C4 amended: GetMonthlyAverages always returns exactly 12 rows, indexed
1..12 in that order; when the monthly table's labels run through consecutive
calendar months starting at October (as the pipeline produces, its clip
starting October 1), the row indexed m holds, for each statistic column, the
mean of that column over exactly the input rows of calendar month m, across
however many years are present — so the table is aligned by month-of-year
but ordered January..December, not October..September. -/
theorem GetMonthlyAverages_calendar_rows (mo : List MoRow)
    (hlab : (mo.map fun r => r.label.month) =
      (List.range mo.length).map fun j => (j + 9) % 12 + 1)
    (m : ℕ) (h1 : 1 ≤ m) (h2 : m ≤ 12) :
    (GetMonthlyAverages mo).length = 12 ∧
    ((GetMonthlyAverages mo).map fun r => r.index) =
      (List.range 12).map (fun i => i + 1) ∧
    ∃ row, (GetMonthlyAverages mo)[m - 1]? = some row ∧ row.index = m ∧
      row.MeanFlow =
        pmean ((mo.filter fun r => r.label.month == m).map fun r => r.MeanFlow) ∧
      row.CoeffVar =
        pmean ((mo.filter fun r => r.label.month == m).map fun r => r.CoeffVar) ∧
      row.Tqmean =
        pmean ((mo.filter fun r => r.label.month == m).map fun r => r.Tqmean) ∧
      row.RBIndex =
        pmean ((mo.filter fun r => r.label.month == m).map fun r => r.RBIndex) := by
  have hm1 : m - 1 < 12 := by omega
  refine ⟨by simp [GetMonthlyAverages], ?_, ?_⟩
  · simp only [GetMonthlyAverages, List.map_map]
    rfl
  · have hget : (GetMonthlyAverages mo)[m - 1]? = some
        { index := (m - 1) + 1
          site_no := pmean (slice (mo.map fun r => r.site_no) 0 12)
          MeanFlow :=
            pmean (slice (mo.map fun r => r.MeanFlow) (month.getD (m - 1) 0) 12)
          CoeffVar :=
            pmean (slice (mo.map fun r => r.CoeffVar) (month.getD (m - 1) 0) 12)
          Tqmean :=
            pmean (slice (mo.map fun r => r.Tqmean) (month.getD (m - 1) 0) 12)
          RBIndex :=
            pmean (slice (mo.map fun r => r.RBIndex) (month.getD (m - 1) 0) 12) } := by
      unfold GetMonthlyAverages
      rw [List.getElem?_map, List.getElem?_range hm1]
      rfl
    refine ⟨_, hget, ?_, ?_, ?_, ?_, ?_⟩
    · show (m - 1) + 1 = m
      omega
    · show pmean (slice (mo.map fun r => r.MeanFlow) (month.getD (m - 1) 0) 12) = _
      rw [slice_map, slice_eq_filter_month mo hlab m h1 h2]
    · show pmean (slice (mo.map fun r => r.CoeffVar) (month.getD (m - 1) 0) 12) = _
      rw [slice_map, slice_eq_filter_month mo hlab m h1 h2]
    · show pmean (slice (mo.map fun r => r.Tqmean) (month.getD (m - 1) 0) 12) = _
      rw [slice_map, slice_eq_filter_month mo hlab m h1 h2]
    · show pmean (slice (mo.map fun r => r.RBIndex) (month.getD (m - 1) 0) 12) = _
      rw [slice_map, slice_eq_filter_month mo hlab m h1 h2]

/-- C4 witness: the amended statement at the concrete one-year table and the
month m = 5 (May). -/
theorem GetMonthlyAverages_calendar_rows_witness :
    ((c4ex.map fun r => r.label.month) =
      (List.range c4ex.length).map fun j => (j + 9) % 12 + 1) ∧
    (GetMonthlyAverages c4ex).length = 12 ∧
    ((GetMonthlyAverages c4ex).map fun r => r.index) =
      (List.range 12).map (fun i => i + 1) ∧
    ∃ row, (GetMonthlyAverages c4ex)[5 - 1]? = some row ∧ row.index = 5 ∧
      row.MeanFlow =
        pmean ((c4ex.filter fun r => r.label.month == 5).map fun r => r.MeanFlow) ∧
      row.CoeffVar =
        pmean ((c4ex.filter fun r => r.label.month == 5).map fun r => r.CoeffVar) ∧
      row.Tqmean =
        pmean ((c4ex.filter fun r => r.label.month == 5).map fun r => r.Tqmean) ∧
      row.RBIndex =
        pmean ((c4ex.filter fun r => r.label.month == 5).map fun r => r.RBIndex) := by
  refine ⟨by decide, ?_⟩
  have h := GetMonthlyAverages_calendar_rows c4ex (by decide) 5 (by decide) (by decide)
  exact ⟨h.1, h.2.1, h.2.2⟩

/-!  C5. -/

/-- C5 counterexample: a clipped series with observations only in water
years 1970 and 1972 yields three emitted rows, the middle one labeled 1971
with NaN Mean Flow even though no observation falls in water year 1971: the
empty period is emitted as a NaN row, not omitted. -/
theorem GetAnnualStatistics_gap_cex :
    ((GetAnnualStatistics c5ex).map fun r => r.label) = [1970, 1971, 1972] ∧
    (c5ex.filter fun r => waterYear r.date == 1971) = [] ∧
    ((GetAnnualStatistics c5ex).map fun r => r.MeanFlow) =
      [.val 4, .nan, .val 6] := by decide

/-- C5 amended: the annual aggregator emits its rows in strictly increasing
(chronological) water-year order; every observation's water year has a row;
and every intermediate water year between the first and the last also
receives a row, even when no observation falls in it (such a row carries NaN
statistics, as the counterexample shows): empty periods inside the span are
emitted, not omitted. -/
theorem GetAnnualStatistics_chronological (rows : List Obs) (h : rows ≠ []) :
    List.Chain' (· < ·) ((GetAnnualStatistics rows).map fun r => r.label) ∧
    (∀ r ∈ rows, ∃ row ∈ GetAnnualStatistics rows,
      row.label = waterYear r.date) ∧
    (∀ y0 y1 y : ℤ, (wyList rows).min? = some y0 →
      (wyList rows).max? = some y1 → y0 ≤ y → y ≤ y1 →
      ∃ row ∈ GetAnnualStatistics rows, row.label = y) := by
  obtain ⟨y0, hy0⟩ : ∃ a, (wyList rows).min? = some a := by
    cases hm : (wyList rows).min? with
    | none =>
      rw [List.min?_eq_none_iff] at hm
      exact absurd (by simpa [wyList] using hm) h
    | some a => exact ⟨a, rfl⟩
  obtain ⟨y1, hy1⟩ : ∃ a, (wyList rows).max? = some a := by
    cases hm : (wyList rows).max? with
    | none =>
      rw [List.max?_eq_none_iff] at hm
      exact absurd (by simpa [wyList] using hm) h
    | some a => exact ⟨a, rfl⟩
  have hmin := min?_spec hy0
  have hmax := max?_spec hy1
  have hGA : GetAnnualStatistics rows = (intRange y0 y1).map fun y =>
      annualRow y (rows.filter fun r => waterYear r.date == y) := by
    unfold GetAnnualStatistics
    rw [hy0, hy1]
  have hlabels : ((GetAnnualStatistics rows).map fun r => r.label) =
      intRange y0 y1 := by
    rw [hGA, List.map_map]
    have hcomp : ((fun r : StatRowA => r.label) ∘ fun y =>
        annualRow y (rows.filter fun r => waterYear r.date == y)) = id := by
      funext y
      rfl
    rw [hcomp, List.map_id]
  refine ⟨?_, ?_, ?_⟩
  · rw [hlabels]
    unfold intRange
    refine List.Pairwise.chain' ?_
    refine List.Pairwise.map _ (fun a b hab => ?_) (List.pairwise_lt_range _)
    omega
  · intro r hr
    have hmem : waterYear r.date ∈ wyList rows := List.mem_map_of_mem _ hr
    refine ⟨annualRow (waterYear r.date)
      (rows.filter fun r2 => waterYear r2.date == waterYear r.date), ?_, rfl⟩
    rw [hGA]
    exact List.mem_map_of_mem _ (mem_intRange (hmin.2 _ hmem) (hmax.2 _ hmem))
  · intro a b y ha hb hay hyb
    have ha0 : a = y0 := by rw [hy0] at ha; exact (Option.some_inj.mp ha).symm
    have hb1 : b = y1 := by rw [hy1] at hb; exact (Option.some_inj.mp hb).symm
    subst ha0
    subst hb1
    refine ⟨annualRow y (rows.filter fun r => waterYear r.date == y), ?_, rfl⟩
    rw [hGA]
    exact List.mem_map_of_mem _ (mem_intRange hay hyb)

/-- C5 witness: the amended statement at the concrete gapped series. -/
theorem GetAnnualStatistics_chronological_witness :
    c5ex ≠ [] ∧
    (List.Chain' (· < ·) ((GetAnnualStatistics c5ex).map fun r => r.label) ∧
      (∀ r ∈ c5ex, ∃ row ∈ GetAnnualStatistics c5ex,
        row.label = waterYear r.date) ∧
      (∀ y0 y1 y : ℤ, (wyList c5ex).min? = some y0 →
        (wyList c5ex).max? = some y1 → y0 ≤ y → y ≤ y1 →
        ∃ row ∈ GetAnnualStatistics c5ex, row.label = y)) :=
  ⟨by decide, GetAnnualStatistics_chronological c5ex (by decide)⟩

end Program10
